import Mathlib

/-!
Verification development for the v2ray-core DNS configuration builder.

Embedded source files:
* `src/common/strmatcher/matchers.go` — the matcher strategies
  (full / substring / subdomain / regex / not / and), modelled over
  `List Char` (Go iterates bytes; all patterns of interest are ASCII,
  where bytes and characters coincide).
* `src/unnamed/part_000` (package `conf`, first document) — the DNS
  configuration builder: `compressPattern`, `loadExternalRules`,
  `getHostPattern`, `getHostMapping`, `NameServerConfig.Build` and
  `DnsConfig.Build`.

Modelling conventions:
* Go strings are Lean `String`s; byte slicing at ASCII offsets is
  character slicing (`strDrop`), and Go's byte-lexicographic string
  order coincides with the character-lexicographic order `strLe`
  because UTF-8 is order preserving.
* Go maps are carried as association lists together with their
  (arbitrary) enumeration order where the code iterates them, and as
  functions `String → Option _` where the code only reads/writes keys
  (`dns.Config.ExternalRules`); a Go `nil` map reads like an empty map
  and the code guards every insertion with a make-if-nil, so nil and
  empty collapse.
* Fallible Go functions returning `(T, error)` become `Except String T`.
* The collaborators that live outside `src/` (`loadGeositeWithAttr`,
  `parseDomainRule`, `toCidrList`) are parameters, collected in `Env`.
-/

deriving instance DecidableEq for Except

namespace strmatcher

/-- Go `strings.Contains(s, m)`: some tail of `s` begins with `m`. -/
def listContains (m : List Char) : List Char → Bool
  | [] => m.isEmpty
  | c :: cs => m.isPrefixOf (c :: cs) || listContains m cs

/-- The matcher strategies of `matchers.go` as a closed variant type:
`fullMatcher`, `substrMatcher`, `domainMatcher`, `regexMatcher`
(delegating to a compiled-pattern predicate), `notMatcher`, `andMatcher`. -/
inductive Matcher where
  | full (value : List Char)
  | substr (value : List Char)
  | domain (value : List Char)
  | regex (re : List Char → Bool)
  | not (inner : Matcher)
  | and (a b : Matcher)

/-- `Match` of each matcher, line for line from `matchers.go`:
full is equality, substr is `strings.Contains`, domain is
`strings.HasSuffix` plus the label-boundary check
`len(s) == len(pattern) || s[len(s)-len(pattern)-1] == '.'`,
regex delegates, not negates, and is `&&` (left to right). -/
def Matcher.Match : Matcher → List Char → Bool
  | .full m, s => m == s
  | .substr m, s => listContains m s
  | .domain m, s =>
      if !(m.isSuffixOf s) then false
      else (s.length == m.length) || (s[s.length - m.length - 1]? == some '.')
  | .regex f, s => f s
  | .not m, s => !(m.Match s)
  | .and a b, s => a.Match s && b.Match s

end strmatcher

namespace router

/-- router.Domain_Type (proto enum used by the rule parser / geosite lists). -/
inductive Domain_Type where
  | Plain
  | Regex
  | Domain
  | Full
deriving DecidableEq, Repr

/-- router.Domain: one entry of a resolved external list. -/
structure Domain where
  type : Domain_Type
  value : String
deriving DecidableEq, Repr

end router

namespace net

/-- net.Network (only UDP is used here). -/
inductive Network where
  | udp
deriving DecidableEq, Repr

end net

namespace conf

/-- conf.Address: an already-validated address value object, either a
literal IP (raw bytes) or a domain name; supplies `Family().IsIP()`,
`IP()` and `Domain()`. -/
inductive Address where
  | ip (bytes : List Nat)
  | domain (name : String)
deriving DecidableEq, Repr

/-- addr.Family().IsIP(). -/
def Address.isIPFamily : Address → Bool
  | .ip _ => true
  | .domain _ => false

/-- addr.IP(); only called under an `IsIP` guard, the domain case is a
dummy value for totality. -/
def Address.ipBytes : Address → List Nat
  | .ip b => b
  | .domain _ => []

/-- addr.Domain(); only called on domain addresses. -/
def Address.domainName : Address → String
  | .ip _ => ""
  | .domain d => d

end conf

namespace net

/-- net.Endpoint as built by NameServerConfig.Build
(`Network: net.Network_UDP`). -/
structure Endpoint where
  network : Network
  address : conf.Address
  port : Nat
deriving DecidableEq, Repr

end net

namespace dns

/-- dns.DomainMatchingType (proto enum; `Full` is the zero value). -/
inductive DomainMatchingType where
  | Full
  | Subdomain
  | Keyword
  | Regex
deriving DecidableEq, Repr

/-- dns.NameServer_PriorityDomain. -/
structure NameServer_PriorityDomain where
  type : DomainMatchingType
  domain : String
deriving DecidableEq, Repr

/-- GeoIP list attached to a name server. Modelled from the spec: the
CIDR tables are built by the external collaborator
`buildCidrRanges(list<string>) -> CidrList` (spec §6) whose payload this
core never inspects, so the ranges are carried verbatim as strings. -/
abbrev GeoIPList := List String

/-- dns.NameServer as assembled by NameServerConfig.Build. -/
structure NameServer where
  address : net.Endpoint
  prioritizedDomain : List NameServer_PriorityDomain
  geoip : GeoIPList
deriving DecidableEq, Repr

/-- dns.ConfigPatterns: an ordered sequence of compressed patterns. -/
structure ConfigPatterns where
  patterns : List String
deriving DecidableEq, Repr

/-- dns.Config_HostMapping. The proto zero values are the defaults:
`new(dns.Config_HostMapping)` leaves `Type` at `Full` (enum value 0),
`Ip` and the strings empty. -/
structure Config_HostMapping where
  type : DomainMatchingType := .Full
  ip : List (List Nat) := []
  proxiedDomain : String := ""
  pattern : String := ""
deriving DecidableEq, Repr

/-- dns.Config_Fake. -/
structure Config_Fake where
  fakeNet : String := ""
  fakeRules : List String := []
deriving DecidableEq, Repr

/-- dns.Config, the Resolved Config produced by DnsConfig.Build.
`ExternalRules` is a Go map read and written only by key, modelled
extensionally as a function (see the module comment). -/
structure Config where
  tag : String := ""
  clientIp : List Nat := []
  nameServer : List NameServer := []
  staticHosts : List Config_HostMapping := []
  hostRules : List Config_HostMapping := []
  externalRules : String → Option ConfigPatterns := fun _ => none
  fake : Option Config_Fake := none

end dns

namespace conf

/-- conf.NameServerConfig. -/
structure NameServerConfig where
  address : Option Address
  port : Nat
  domains : List String
  expectIPs : List String

/-- conf.FakeIPConfig. `fakeRules = none` models a nil `FakeRules` slice. -/
structure FakeIPConfig where
  fakeRules : Option (List String)
  fakeNet : String

/-- conf.DnsConfig. `hosts` is the Go map `map[string]*Address`
together with its enumeration order; a nil or empty map is `[]`. -/
structure DnsConfig where
  servers : List NameServerConfig
  hosts : List (String × Address)
  clientIP : Option Address
  tag : String
  fake : Option FakeIPConfig

/-- Collaborators of the conf package that live outside `src/`:
`loadGeositeWithAttr(filename, tag)` resolves an external list,
`parseDomainRule` is the rule parser used for name-server priority
domains, `toCidrList` builds the expect-IP CIDR tables. -/
structure Env where
  loadGeositeWithAttr : String → String → Except String (List router.Domain)
  parseDomainRule : String → Except String (List router.Domain)
  toCidrList : List String → Except String dns.GeoIPList

/-- Go `s[len(p):]` for an ASCII byte offset: drop `n` characters. -/
def strDrop (s : String) (n : Nat) : String := ⟨s.data.drop n⟩

/-- Go `strings.HasPrefix(s, p)`: the first `len(p)` characters of `s`
are exactly `p` (ASCII offsets, see module comment). -/
def strStarts (s p : String) : Bool := s.data.take p.data.length == p.data

/-- Go `strings.Split(s, sep)` for a one-character separator, on the
character list: splitting the empty string yields `[[]]`. -/
def splitChars (sep : Char) : List Char → List (List Char)
  | [] => [[]]
  | c :: cs =>
      match splitChars sep cs with
      | [] => [[c]]
      | h :: t => if c = sep then [] :: h :: t else (c :: h) :: t

/-- Go `strings.Split(s, string(sep))`. -/
def splitStr (s : String) (sep : Char) : List String :=
  (splitChars sep s.data).map (fun l => ⟨l⟩)

/-- Go `strings.ToUpper`, restricted to the ASCII letters that occur in
geosite tags. -/
def upperStr (s : String) : String := ⟨s.data.map Char.toUpper⟩

/-- Byte-lexicographic comparison of character lists (Go `s1 <= s2` on
strings; UTF-8 is order preserving, so byte order is character order). -/
def lexLe : List Char → List Char → Bool
  | [], _ => true
  | _ :: _, [] => false
  | a :: as, b :: bs => if a = b then lexLe as bs else decide (a < b)

/-- Go string order used by `sort.Strings`. -/
def strLe (s t : String) : Bool := lexLe s.data t.data

/-- The order `strLe` as a decidable relation, for `List.insertionSort`. -/
def strLeP (a b : String) : Prop := strLe a b = true

instance : DecidableRel strLeP := fun a b =>
  inferInstanceAs (Decidable (strLe a b = true))

/-- Go `sort.Strings`: sort into non-decreasing `strLe` order (the Go
sort is unstable, but string sorting has a unique sorted result). -/
def sortStrings (l : List String) : List String := List.insertionSort strLeP l

/-- toDomainMatchingType (total: the four cases cover router.Domain_Type,
so the Go `panic` branch is unreachable). -/
def toDomainMatchingType : router.Domain_Type → dns.DomainMatchingType
  | .Domain => .Subdomain
  | .Full => .Full
  | .Plain => .Keyword
  | .Regex => .Regex

/-- typeMap (same total mapping, used for host mappings). -/
def typeMap : router.Domain_Type → dns.DomainMatchingType
  | .Full => .Full
  | .Domain => .Subdomain
  | .Plain => .Keyword
  | .Regex => .Regex

/-- prefixMapper. The Go map is iterated in arbitrary order; because no
recognized dialect string is a prefix of another (see
`prefixMapper_keys_disjoint`) at most one entry can match, so a fixed
list order is an equivalent model. -/
def prefixMapper : List (String × String) :=
  [("domain:", "d"),
   ("regexp:", "r"),
   ("keyword:", "k"),
   ("full:", "f"),
   ("geosite:", "egeosite.dat:"),
   ("ext:", "e"),
   ("geoip:", "i")]

/-- typeMapper: kind letter of a resolved router.Domain entry. -/
def typeMapper : router.Domain_Type → String
  | .Full => "f"
  | .Domain => "d"
  | .Plain => "k"
  | .Regex => "r"

/-- compressPattern: first matching dialect wins, otherwise full match. -/
def compressPattern (pat : String) : String :=
  match prefixMapper.find? (fun pc => strStarts pat pc.1) with
  | some pc => pc.2 ++ strDrop pat pc.1.data.length
  | none => "f" ++ pat

/-- loadExternalRules. `cmd := pattern[0]` is modelled by `headD`; every
caller passes a `compressPattern` output, which is never empty (see
`compressPattern_head_safe`), so the dummy default is dead code.
On success the resolver's expansion is stored in the external-rule index
under the key `arg = pattern[1:]`. -/
def loadExternalRules (env : Env) (pat : String) (c : dns.Config) :
    Except String dns.Config :=
  let cmd := pat.data.headD ' '
  if cmd ≠ 'e' then .ok c
  else
    let arg := strDrop pat 1
    match splitStr arg ':' with
    | [filename, country] =>
        match env.loadGeositeWithAttr filename country with
        | .error e =>
            .error ("invalid external settings from " ++ filename ++ ": "
                    ++ arg ++ ": " ++ e)
        | .ok domains =>
            let externRules : dns.ConfigPatterns :=
              ⟨domains.map (fun d => typeMapper d.type ++ d.value)⟩
            .ok { c with
                  externalRules := fun k =>
                    if k = arg then some externRules else c.externalRules k }
    | _ => .error ("invalid external resource: " ++ arg)

/-- getHostMapping: target of a host mapping from an address. -/
def getHostMapping (addr : Address) : dns.Config_HostMapping :=
  if addr.isIPFamily then { ip := [addr.ipBytes] }
  else { proxiedDomain := addr.domainName }

/-- getHostPattern (first document, lines 199–211): build the flat host
rule with the compressed pattern, attempt `loadExternalRules` on it, and
append the rule only when that succeeded — on error the config is left
untouched and no error is propagated. -/
def getHostPattern (env : Env) (addr : Address) (pat : String)
    (c : dns.Config) : dns.Config :=
  let item : dns.Config_HostMapping :=
    if addr.isIPFamily then
      { ip := [addr.ipBytes], pattern := compressPattern pat }
    else
      { proxiedDomain := addr.domainName, pattern := compressPattern pat }
  match loadExternalRules env (compressPattern pat) c with
  | .ok c' => { c' with hostRules := c'.hostRules ++ [item] }
  | .error _ => c

/-- The priority-domain loop of NameServerConfig.Build. -/
def buildPriorityDomains (env : Env) :
    List String → Except String (List dns.NameServer_PriorityDomain)
  | [] => .ok []
  | d :: rest =>
      match env.parseDomainRule d with
      | .error e => .error ("invalid domain rule: " ++ d ++ ": " ++ e)
      | .ok pds =>
          match buildPriorityDomains env rest with
          | .error e => .error e
          | .ok tail =>
              .ok (pds.map (fun pd =>
                    ⟨toDomainMatchingType pd.type, pd.value⟩) ++ tail)

/-- NameServerConfig.Build. -/
def NameServerConfig.build (env : Env) (c : NameServerConfig) :
    Except String dns.NameServer :=
  match c.address with
  | none => .error "NameServer address is not specified."
  | some addr =>
      match buildPriorityDomains env c.domains with
      | .error e => .error e
      | .ok domains =>
          match env.toCidrList c.expectIPs with
          | .error e => .error ("invalid ip rule: " ++ e)
          | .ok geoipList =>
              .ok { address := { network := .udp
                                 address := addr
                                 port := c.port }
                    prioritizedDomain := domains
                    geoip := geoipList }

/-- ClientIP phase of DnsConfig.Build. -/
def buildClientIp (c : DnsConfig) (config : dns.Config) :
    Except String dns.Config :=
  match c.clientIP with
  | none => .ok config
  | some a =>
      if a.isIPFamily then .ok { config with clientIp := a.ipBytes }
      else .error "not an IP address:"

/-- Name-server phase of DnsConfig.Build. -/
def buildServers (env : Env) :
    List NameServerConfig → dns.Config → Except String dns.Config
  | [], config => .ok config
  | s :: rest, config =>
      match s.build env with
      | .error e => .error ("failed to build name server: " ++ e)
      | .ok ns =>
          buildServers env rest
            { config with nameServer := config.nameServer ++ [ns] }

/-- First hosts loop of DnsConfig.Build (lines 236–239): iterate the
Hosts map in its enumeration order, collecting the textual keys and
running `getHostPattern` on every entry. -/
def hostsLoop1 (env : Env) :
    List (String × Address) → List String × dns.Config →
    List String × dns.Config
  | [], acc => acc
  | (pat, addr) :: rest, (ds, cfg) =>
      hostsLoop1 env rest (ds ++ [pat], getHostPattern env addr pat cfg)

/-- Static-host mappings for one sorted textual key (the if/else chain of
lines 244–304): each branch builds on `getHostMapping addr`. -/
def staticEntry (env : Env) (addr : Address) (domain : String) :
    Except String (List dns.Config_HostMapping) :=
  if strStarts domain "domain:" then
    .ok [{ getHostMapping addr with
           type := .Subdomain
           pattern := strDrop domain 7 }]
  else if strStarts domain "geosite:" then
    match env.loadGeositeWithAttr "geosite.dat" (upperStr (strDrop domain 8)) with
    | .error e => .error ("invalid geosite settings: " ++ domain ++ ": " ++ e)
    | .ok ds =>
        .ok (ds.map (fun d =>
          { getHostMapping addr with
            type := typeMap d.type
            pattern := d.value }))
  else if strStarts domain "regexp:" then
    .ok [{ getHostMapping addr with
           type := .Regex
           pattern := strDrop domain 7 }]
  else if strStarts domain "keyword:" then
    .ok [{ getHostMapping addr with
           type := .Keyword
           pattern := strDrop domain 8 }]
  else if strStarts domain "full:" then
    .ok [{ getHostMapping addr with
           type := .Full
           pattern := strDrop domain 5 }]
  else if strStarts domain "ext:" then
    match splitStr (strDrop domain 4) ':' with
    | [filename, country] =>
        match env.loadGeositeWithAttr filename country with
        | .error e =>
            .error ("failed to load domains: " ++ country ++ " from "
                    ++ filename ++ ": " ++ e)
        | .ok ds =>
            .ok (ds.map (fun d =>
              { getHostMapping addr with
                type := typeMap d.type
                pattern := d.value }))
    | _ => .error ("invalid external resource: " ++ domain)
  else
    .ok [{ getHostMapping addr with type := .Full, pattern := domain }]

/-- Second hosts loop of DnsConfig.Build (lines 241–307): for every key
in sorted order look the address up in the Hosts map and append that
key's mappings to StaticHosts. The `none` branch of the lookup is
unreachable because the keys are drawn from the very same map. -/
def hostsLoop2 (env : Env) (hosts : List (String × Address)) :
    List String → dns.Config → Except String dns.Config
  | [], config => .ok config
  | d :: rest, config =>
      match hosts.lookup d with
      | none => hostsLoop2 env hosts rest config
      | some addr =>
          match staticEntry env addr d with
          | .error e => .error e
          | .ok ms =>
              hostsLoop2 env hosts rest
                { config with staticHosts := config.staticHosts ++ ms }

/-- Hosts phase of DnsConfig.Build (`if c.Hosts != nil && len(c.Hosts) > 0`). -/
def buildHosts (env : Env) (hosts : List (String × Address))
    (config : dns.Config) : Except String dns.Config :=
  if hosts.isEmpty then .ok config
  else
    let acc := hostsLoop1 env hosts ([], config)
    hostsLoop2 env hosts (sortStrings acc.1) acc.2

/-- Fake-rule loop (lines 318–328): compress every pattern, keep it only
when `loadExternalRules` succeeded (`fakeRules[:i]`), dropping failures
without aborting. -/
def buildFakeRules (env : Env) :
    List String → dns.Config → List String × dns.Config
  | [], config => ([], config)
  | pat :: rest, config =>
      let newPattern := compressPattern pat
      match loadExternalRules env newPattern config with
      | .ok config' =>
          let acc := buildFakeRules env rest config'
          (newPattern :: acc.1, acc.2)
      | .error _ => buildFakeRules env rest config

/-- Fake phase of DnsConfig.Build (lines 310–330): default the network
range to 224.0.0.0/8 when unspecified, then filter the fake rules. -/
def buildFake (env : Env) (fk : Option FakeIPConfig) (config : dns.Config) :
    dns.Config :=
  match fk with
  | none => config
  | some f =>
      let fakeNet := if f.fakeNet = "" then "224.0.0.0/8" else f.fakeNet
      match f.fakeRules with
      | none => { config with fake := some { fakeNet := fakeNet } }
      | some rules =>
          let acc := buildFakeRules env rules config
          { acc.2 with fake := some { fakeNet := fakeNet
                                      fakeRules := acc.1 } }

/-- DnsConfig.Build (first document, lines 214–333): tag, client IP,
name servers, hosts, fake — any error aborts the whole build (the Go
early returns are the `Except` bind chain). -/
def DnsConfig.build (env : Env) (c : DnsConfig) : Except String dns.Config :=
  Except.bind (buildClientIp c { tag := c.tag }) (fun cfg1 =>
    Except.bind (buildServers env c.servers cfg1) (fun cfg2 =>
      Except.map (buildFake env c.fake) (buildHosts env c.hosts cfg2)))

/-!
Proof-layer definitions: spec functions used to factor the proofs.
They restate fragments of the build functions above; agreement lemmas
(`loadExternalRules_eq`, `getHostPattern_eq`, …) connect the two.
-/

/-- Outcome of one `loadExternalRules` attempt, separated from the
config it would be applied to: `ok none` is the no-op (non-`e`) case,
`ok (some (k, v))` records the write to the external-rule index. -/
def extAttempt (env : Env) (pat : String) :
    Except String (Option (String × dns.ConfigPatterns)) :=
  if pat.data.headD ' ' ≠ 'e' then .ok none
  else
    let arg := strDrop pat 1
    match splitStr arg ':' with
    | [filename, country] =>
        match env.loadGeositeWithAttr filename country with
        | .error e =>
            .error ("invalid external settings from " ++ filename ++ ": "
                    ++ arg ++ ": " ++ e)
        | .ok domains =>
            .ok (some (arg,
                  ⟨domains.map (fun d => typeMapper d.type ++ d.value)⟩))
    | _ => .error ("invalid external resource: " ++ arg)

/-- Apply a recorded external-index write to a config. -/
def applyExt (w : Option (String × dns.ConfigPatterns)) (c : dns.Config) :
    dns.Config :=
  match w with
  | none => c
  | some kv =>
      { c with externalRules := fun x =>
          if x = kv.1 then some kv.2 else c.externalRules x }

/-- The value the external-rule index can hold at key `k`, as a function
of the key alone (the write value of `loadExternalRules` is determined
by its key). -/
def extValOf (env : Env) (k : String) : Option dns.ConfigPatterns :=
  match splitStr k ':' with
  | [filename, country] =>
      match env.loadGeositeWithAttr filename country with
      | .ok domains =>
          some ⟨domains.map (fun d => typeMapper d.type ++ d.value)⟩
      | .error _ => none
  | _ => none

/-- The flat host rule `getHostPattern` records for one Hosts entry. -/
def hostItem (addr : Address) (pat : String) : dns.Config_HostMapping :=
  if addr.isIPFamily then
    { ip := [addr.ipBytes], pattern := compressPattern pat }
  else
    { proxiedDomain := addr.domainName, pattern := compressPattern pat }

/-- The host rule kept by `getHostPattern` for one Hosts entry (kept
exactly when `loadExternalRules` did not fail). -/
def keptRule (env : Env) (e : String × Address) :
    Option dns.Config_HostMapping :=
  match extAttempt env (compressPattern e.1) with
  | .ok _ => some (hostItem e.2 e.1)
  | .error _ => none

/-- The external-index key written for one Hosts entry, if any. -/
def extWriteKey (env : Env) (e : String × Address) : Option String :=
  match extAttempt env (compressPattern e.1) with
  | .ok (some kv) => some kv.1
  | _ => none

/-- Two resolved configs that agree on every field except that the
HostRules list may be reordered. -/
def sameUpToHostRules (r₁ r₂ : dns.Config) : Prop :=
  r₁.tag = r₂.tag ∧ r₁.clientIp = r₂.clientIp ∧
  r₁.nameServer = r₂.nameServer ∧ r₁.staticHosts = r₂.staticHosts ∧
  r₁.externalRules = r₂.externalRules ∧ r₁.fake = r₂.fake ∧
  r₁.hostRules.Perm r₂.hostRules

/-- Lift a relation on configs to build results: errors pair with
errors, successes with successes related by `R`. -/
def exceptRel (R : dns.Config → dns.Config → Prop) :
    Except String dns.Config → Except String dns.Config → Prop
  | .ok a, .ok b => R a b
  | .error _, .error _ => True
  | _, _ => False

/-- Both builds succeeded and their outputs agree up to the order of
HostRules. -/
def sameBuildUpToHostRules (x y : Except String dns.Config) : Prop :=
  ∃ r₁ r₂, x = .ok r₁ ∧ y = .ok r₂ ∧ sameUpToHostRules r₁ r₂

/-!
Concrete fixtures used by witnesses and counterexamples.
-/

/-- Test environment whose resolver knows exactly the list ("g", "a"). -/
def envW : Env :=
  { loadGeositeWithAttr := fun f c =>
      if f = "g" ∧ c = "a" then .ok [⟨.Full, "x.com"⟩, ⟨.Domain, "y.com"⟩]
      else .error "unknown"
    parseDomainRule := fun _ => .error "unused"
    toCidrList := fun _ => .error "unused" }

/-- A two-entry Hosts map in one enumeration order … -/
def hostsA : List (String × Address) := [("a", .ip [1]), ("b", .ip [1])]

/-- … and the same two-entry Hosts map enumerated the other way round. -/
def hostsB : List (String × Address) := [("b", .ip [1]), ("a", .ip [1])]

end conf

open conf

/-!
String, order and lookup infrastructure lemmas.
-/

theorem strStarts_iff (s p : String) :
    strStarts s p = true ↔ p.data <+: s.data := by
  unfold strStarts
  rw [beq_iff_eq, List.prefix_iff_eq_take]
  exact eq_comm

theorem splitChars_no_sep (sep : Char) :
    ∀ l : List Char, ¬ sep ∈ l → splitChars sep l = [l] := by
  intro l
  induction l with
  | nil => intro _; rfl
  | cons c cs ih =>
      intro h
      simp only [List.mem_cons, not_or] at h
      obtain ⟨h1, h2⟩ := h
      simp only [splitChars, ih h2]
      simp [Ne.symm h1]

theorem lexLe_total : ∀ a b : List Char, lexLe a b = true ∨ lexLe b a = true
  | [], _ => Or.inl rfl
  | _ :: _, [] => Or.inr rfl
  | a :: as, b :: bs => by
      by_cases hab : a = b
      · subst hab
        simp only [lexLe, if_pos rfl]
        exact lexLe_total as bs
      · rcases Ne.lt_or_lt hab with h | h
        · exact Or.inl (by simp [lexLe, hab, h])
        · exact Or.inr (by simp [lexLe, Ne.symm hab, h])

theorem lexLe_trans :
    ∀ a b c : List Char, lexLe a b = true → lexLe b c = true →
      lexLe a c = true
  | [], _, _ => fun _ _ => rfl
  | _ :: _, [], _ => fun h _ => by simp [lexLe] at h
  | _ :: _, _ :: _, [] => fun _ h => by simp [lexLe] at h
  | a :: as, b :: bs, c :: cs => fun h1 h2 => by
      by_cases hab : a = b <;> by_cases hbc : b = c
      · subst hab; subst hbc
        simp only [lexLe, if_pos rfl] at h1 h2 ⊢
        exact lexLe_trans as bs cs h1 h2
      · subst hab
        simp only [lexLe, if_pos rfl] at h1
        simp only [lexLe, if_neg hbc, decide_eq_true_eq] at h2
        simp [lexLe, if_neg (ne_of_lt h2), h2]
      · subst hbc
        simp only [lexLe, if_neg hab, decide_eq_true_eq] at h1
        simp [lexLe, if_neg (ne_of_lt h1), h1]
      · simp only [lexLe, if_neg hab, decide_eq_true_eq] at h1
        simp only [lexLe, if_neg hbc, decide_eq_true_eq] at h2
        have hac := lt_trans h1 h2
        simp [lexLe, if_neg (ne_of_lt hac), hac]

theorem lexLe_antisymm :
    ∀ a b : List Char, lexLe a b = true → lexLe b a = true → a = b
  | [], [] => fun _ _ => rfl
  | [], _ :: _ => fun _ h => by simp [lexLe] at h
  | _ :: _, [] => fun h _ => by simp [lexLe] at h
  | a :: as, b :: bs => fun h1 h2 => by
      by_cases hab : a = b
      · subst hab
        simp only [lexLe, if_pos rfl] at h1 h2
        rw [lexLe_antisymm as bs h1 h2]
      · simp only [lexLe, if_neg hab, decide_eq_true_eq] at h1
        simp only [lexLe, if_neg (Ne.symm hab), decide_eq_true_eq] at h2
        exact absurd h2 (lt_asymm h1)

theorem strLeP_total (a b : String) : strLeP a b ∨ strLeP b a :=
  lexLe_total a.data b.data

theorem strLeP_trans (a b c : String) :
    strLeP a b → strLeP b c → strLeP a c :=
  lexLe_trans a.data b.data c.data

theorem strLeP_antisymm (a b : String) :
    strLeP a b → strLeP b a → a = b := fun h1 h2 =>
  String.ext (lexLe_antisymm a.data b.data h1 h2)

theorem sortStrings_perm (l : List String) : (sortStrings l).Perm l :=
  List.perm_insertionSort strLeP l

theorem sortStrings_sorted (l : List String) :
    List.Sorted strLeP (sortStrings l) := by
  haveI : IsTotal String strLeP := ⟨strLeP_total⟩
  haveI : IsTrans String strLeP := ⟨strLeP_trans⟩
  exact List.sorted_insertionSort strLeP l

theorem sortStrings_eq_of_perm {l₁ l₂ : List String} (h : l₁.Perm l₂) :
    sortStrings l₁ = sortStrings l₂ := by
  haveI : IsAntisymm String strLeP := ⟨strLeP_antisymm⟩
  exact List.eq_of_perm_of_sorted
    (((sortStrings_perm l₁).trans h).trans (sortStrings_perm l₂).symm)
    (sortStrings_sorted l₁) (sortStrings_sorted l₂)

theorem mem_sortStrings {x : String} {l : List String} :
    x ∈ sortStrings l ↔ x ∈ l :=
  (sortStrings_perm l).mem_iff

theorem lookup_isSome_of_mem {k : String} {a : Address} :
    ∀ {hosts : List (String × Address)}, (k, a) ∈ hosts →
      ∃ b, hosts.lookup k = some b := by
  intro hosts
  induction hosts with
  | nil => intro h; simp at h
  | cons e t ih =>
      intro h
      obtain ⟨k', b⟩ := e
      cases hk : (k == k') with
      | true => exact ⟨b, by simp [List.lookup_cons, hk]⟩
      | false =>
          rcases List.mem_cons.mp h with h' | h'
          · cases h'
            simp at hk
          · obtain ⟨b', hb'⟩ := ih h'
            exact ⟨b', by simp [List.lookup_cons, hk, hb']⟩

theorem lookup_congr_perm {l₁ l₂ : List (String × Address)}
    (h : l₁.Perm l₂) :
    (l₁.map Prod.fst).Nodup → ∀ k, l₁.lookup k = l₂.lookup k := by
  induction h with
  | nil => intro _ k; rfl
  | cons x h ih =>
      intro hnd k
      obtain ⟨kx, bx⟩ := x
      have hnd' : _ := (List.nodup_cons.mp hnd).2
      cases hk : (k == kx) <;> simp [List.lookup_cons, hk, ih hnd' k]
  | swap x y l =>
      intro hnd k
      obtain ⟨kx, bx⟩ := x
      obtain ⟨ky, bY⟩ := y
      have hxy : ky ≠ kx := by
        have := (List.nodup_cons.mp hnd).1
        simp only [List.map_cons, List.mem_cons] at this
        exact fun hq => this (Or.inl hq)
      cases hk1 : (k == ky) <;> cases hk2 : (k == kx) <;>
        simp [List.lookup_cons, hk1, hk2]
      exact absurd ((eq_of_beq hk1).symm.trans (eq_of_beq hk2)) hxy
  | trans h1 h2 ih1 ih2 =>
      intro hnd k
      have hnd2 := ((h1.map Prod.fst).nodup_iff).mp hnd
      exact (ih1 hnd k).trans (ih2 hnd2 k)

/-!
Agreement and characterization lemmas for the build pipeline.
-/

theorem loadExternalRules_eq (env : Env) (pat : String) (c : dns.Config) :
    loadExternalRules env pat c =
      Except.map (fun w => applyExt w c) (extAttempt env pat) := by
  by_cases h : pat.data.headD ' ' = 'e'
  · rw [List.headD_eq_head?_getD] at h
    simp only [loadExternalRules, extAttempt, List.headD_eq_head?_getD, h,
      ne_eq, not_true_eq_false, if_false]
    rcases hsp : splitStr (strDrop pat 1) ':' with _ | ⟨f, _ | ⟨ct, _ | _⟩⟩
    · simp [Except.map]
    · simp [Except.map]
    · rcases hr : env.loadGeositeWithAttr f ct with e | ds <;>
        simp [hr, Except.map, applyExt]
    · simp [Except.map]
  · rw [List.headD_eq_head?_getD] at h
    simp [loadExternalRules, extAttempt, h, applyExt, Except.map]

theorem loadExternalRules_not_e (env : Env) (pat : String) (c : dns.Config)
    (h : pat.data.headD ' ' ≠ 'e') : loadExternalRules env pat c = .ok c := by
  rw [List.headD_eq_head?_getD] at h
  simp [loadExternalRules, h]

theorem loadExternalRules_resolved (env : Env) (pat : String)
    (c : dns.Config) {f ct : String} {ds : List router.Domain}
    (h0 : pat.data.headD ' ' = 'e')
    (h1 : splitStr (strDrop pat 1) ':' = [f, ct])
    (h2 : env.loadGeositeWithAttr f ct = .ok ds) :
    loadExternalRules env pat c =
      .ok { c with externalRules := fun k =>
              if k = strDrop pat 1 then
                some ⟨ds.map (fun d => typeMapper d.type ++ d.value)⟩
              else c.externalRules k } := by
  rw [List.headD_eq_head?_getD] at h0
  simp [loadExternalRules, h0, h1, h2]

theorem loadExternalRules_failed (env : Env) (pat : String)
    (c : dns.Config) {f ct e : String}
    (h0 : pat.data.headD ' ' = 'e')
    (h1 : splitStr (strDrop pat 1) ':' = [f, ct])
    (h2 : env.loadGeositeWithAttr f ct = .error e) :
    loadExternalRules env pat c =
      .error ("invalid external settings from " ++ f ++ ": "
              ++ strDrop pat 1 ++ ": " ++ e) := by
  rw [List.headD_eq_head?_getD] at h0
  simp [loadExternalRules, h0, h1, h2]

theorem extAttempt_ok_val {env : Env} {pat k : String}
    {v : dns.ConfigPatterns}
    (h : extAttempt env pat = .ok (some (k, v))) : extValOf env k = some v := by
  by_cases h0 : pat.data.headD ' ' = 'e'
  · rw [List.headD_eq_head?_getD] at h0
    simp only [extAttempt, List.headD_eq_head?_getD, h0, ne_eq,
      not_true_eq_false, if_false] at h
    rcases hsp : splitStr (strDrop pat 1) ':' with _ | ⟨f, _ | ⟨ct, _ | _⟩⟩
    · simp [hsp] at h
    · simp [hsp] at h
    · simp only [hsp] at h
      rcases hr : env.loadGeositeWithAttr f ct with e | ds
      · simp [hr] at h
      · simp only [hr, Except.ok.injEq, Option.some.injEq,
          Prod.mk.injEq] at h
        obtain ⟨rfl, rfl⟩ := h
        simp [extValOf, hsp, hr]
    · simp [hsp] at h
  · rw [List.headD_eq_head?_getD] at h0
    simp [extAttempt, h0] at h

theorem applyExt_tag (w : Option (String × dns.ConfigPatterns))
    (c : dns.Config) : (applyExt w c).tag = c.tag := by cases w <;> rfl

theorem applyExt_clientIp (w : Option (String × dns.ConfigPatterns))
    (c : dns.Config) : (applyExt w c).clientIp = c.clientIp := by
  cases w <;> rfl

theorem applyExt_nameServer (w : Option (String × dns.ConfigPatterns))
    (c : dns.Config) : (applyExt w c).nameServer = c.nameServer := by
  cases w <;> rfl

theorem applyExt_staticHosts (w : Option (String × dns.ConfigPatterns))
    (c : dns.Config) : (applyExt w c).staticHosts = c.staticHosts := by
  cases w <;> rfl

theorem applyExt_hostRules (w : Option (String × dns.ConfigPatterns))
    (c : dns.Config) : (applyExt w c).hostRules = c.hostRules := by
  cases w <;> rfl

theorem applyExt_fake (w : Option (String × dns.ConfigPatterns))
    (c : dns.Config) : (applyExt w c).fake = c.fake := by cases w <;> rfl

theorem getHostPattern_eq (env : Env) (addr : Address) (pat : String)
    (c : dns.Config) :
    getHostPattern env addr pat c =
      match extAttempt env (compressPattern pat) with
      | .ok w => { applyExt w c with
                   hostRules := c.hostRules ++ [hostItem addr pat] }
      | .error _ => c := by
  unfold getHostPattern hostItem
  rw [loadExternalRules_eq]
  cases hw : extAttempt env (compressPattern pat) with
  | error e => simp [Except.map]
  | ok w => simp [Except.map, applyExt_hostRules]

theorem getHostPattern_fields (env : Env) (addr : Address) (pat : String)
    (c : dns.Config) :
    (getHostPattern env addr pat c).tag = c.tag ∧
    (getHostPattern env addr pat c).clientIp = c.clientIp ∧
    (getHostPattern env addr pat c).nameServer = c.nameServer ∧
    (getHostPattern env addr pat c).staticHosts = c.staticHosts ∧
    (getHostPattern env addr pat c).fake = c.fake := by
  rw [getHostPattern_eq]
  cases hw : extAttempt env (compressPattern pat) with
  | error e => exact ⟨rfl, rfl, rfl, rfl, rfl⟩
  | ok w =>
      exact ⟨applyExt_tag w c, applyExt_clientIp w c, applyExt_nameServer w c,
             applyExt_staticHosts w c, applyExt_fake w c⟩

theorem hostsLoop1_fst (env : Env) :
    ∀ (entries : List (String × Address)) (ds : List String)
      (cfg : dns.Config),
      (hostsLoop1 env entries (ds, cfg)).1 = ds ++ entries.map Prod.fst
  | [], ds, cfg => by simp [hostsLoop1]
  | (pat, addr) :: rest, ds, cfg => by
      simp only [hostsLoop1]
      rw [hostsLoop1_fst env rest]
      simp

theorem hostsLoop1_fields (env : Env) :
    ∀ (entries : List (String × Address)) (ds : List String)
      (cfg : dns.Config),
      (hostsLoop1 env entries (ds, cfg)).2.tag = cfg.tag ∧
      (hostsLoop1 env entries (ds, cfg)).2.clientIp = cfg.clientIp ∧
      (hostsLoop1 env entries (ds, cfg)).2.nameServer = cfg.nameServer ∧
      (hostsLoop1 env entries (ds, cfg)).2.staticHosts = cfg.staticHosts ∧
      (hostsLoop1 env entries (ds, cfg)).2.fake = cfg.fake
  | [], ds, cfg => ⟨rfl, rfl, rfl, rfl, rfl⟩
  | (pat, addr) :: rest, ds, cfg => by
      simp only [hostsLoop1]
      obtain ⟨i1, i2, i3, i4, i5⟩ :=
        hostsLoop1_fields env rest (ds ++ [pat])
          (getHostPattern env addr pat cfg)
      obtain ⟨g1, g2, g3, g4, g5⟩ := getHostPattern_fields env addr pat cfg
      exact ⟨i1.trans g1, i2.trans g2, i3.trans g3, i4.trans g4, i5.trans g5⟩

theorem hostsLoop1_hostRules (env : Env) :
    ∀ (entries : List (String × Address)) (ds : List String)
      (cfg : dns.Config),
      (hostsLoop1 env entries (ds, cfg)).2.hostRules =
        cfg.hostRules ++ entries.filterMap (keptRule env)
  | [], ds, cfg => by simp [hostsLoop1]
  | (pat, addr) :: rest, ds, cfg => by
      simp only [hostsLoop1]
      rw [hostsLoop1_hostRules env rest]
      rw [getHostPattern_eq]
      cases hw : extAttempt env (compressPattern pat) with
      | error e =>
          have hk : keptRule env (pat, addr) = none := by
            simp [keptRule, hw]
          simp [List.filterMap_cons, hk]
      | ok w =>
          have hk : keptRule env (pat, addr) = some (hostItem addr pat) := by
            simp [keptRule, hw]
          simp [List.filterMap_cons, hk]

theorem hostsLoop1_externalRules (env : Env) :
    ∀ (entries : List (String × Address)) (ds : List String)
      (cfg : dns.Config) (k : String),
      (hostsLoop1 env entries (ds, cfg)).2.externalRules k =
        if k ∈ entries.filterMap (extWriteKey env) then extValOf env k
        else cfg.externalRules k
  | [], ds, cfg, k => by simp [hostsLoop1]
  | (pat, addr) :: rest, ds, cfg, k => by
      simp only [hostsLoop1]
      rw [hostsLoop1_externalRules env rest]
      rw [getHostPattern_eq]
      cases hw : extAttempt env (compressPattern pat) with
      | error e =>
          have hek : List.filterMap (extWriteKey env) ((pat, addr) :: rest)
              = List.filterMap (extWriteKey env) rest := by
            simp [List.filterMap_cons, extWriteKey, hw]
          rw [hek]
      | ok w =>
          cases w with
          | none =>
              have hek : List.filterMap (extWriteKey env) ((pat, addr) :: rest)
                  = List.filterMap (extWriteKey env) rest := by
                simp [List.filterMap_cons, extWriteKey, hw]
              rw [hek]
              exact rfl
          | some kv =>
              obtain ⟨kk, vv⟩ := kv
              have hek : List.filterMap (extWriteKey env) ((pat, addr) :: rest)
                  = kk :: List.filterMap (extWriteKey env) rest := by
                simp [List.filterMap_cons, extWriteKey, hw]
              have hval : extValOf env kk = some vv := extAttempt_ok_val hw
              rw [hek]
              by_cases hk1 : k ∈ rest.filterMap (extWriteKey env)
              · simp [hk1, List.mem_cons]
              · by_cases hk2 : k = kk
                · subst hk2
                  simp [hk1, applyExt, hval]
                · simp [hk1, hk2, applyExt, List.mem_cons]

theorem hostsLoop2_congr (env : Env)
    (h₁ h₂ : List (String × Address))
    (hlk : ∀ k, h₁.lookup k = h₂.lookup k) :
    ∀ (keys : List String) (c₁ c₂ : dns.Config),
      sameUpToHostRules c₁ c₂ →
      exceptRel sameUpToHostRules (hostsLoop2 env h₁ keys c₁)
        (hostsLoop2 env h₂ keys c₂) := by
  intro keys
  induction keys with
  | nil => intro c₁ c₂ hR; exact hR
  | cons d rest ih =>
      intro c₁ c₂ hR
      have hld := hlk d
      cases hl : h₂.lookup d with
      | none =>
          rw [hl] at hld
          simp only [hostsLoop2, hld, hl]
          exact ih c₁ c₂ hR
      | some a =>
          rw [hl] at hld
          cases hs : staticEntry env a d with
          | error e =>
              simp only [hostsLoop2, hld, hl, hs]
              trivial
          | ok ms =>
              simp only [hostsLoop2, hld, hl, hs]
              apply ih
              obtain ⟨t1, t2, t3, t4, t5, t6, t7⟩ := hR
              exact ⟨t1, t2, t3, by simp [t4], t5, t6, t7⟩

theorem buildFakeRules_congr (env : Env) :
    ∀ (rules : List String) (c₁ c₂ : dns.Config),
      sameUpToHostRules c₁ c₂ →
      (buildFakeRules env rules c₁).1 = (buildFakeRules env rules c₂).1 ∧
      sameUpToHostRules (buildFakeRules env rules c₁).2
        (buildFakeRules env rules c₂).2 := by
  intro rules
  induction rules with
  | nil => intro c₁ c₂ hR; exact ⟨rfl, hR⟩
  | cons pat rest ih =>
      intro c₁ c₂ hR
      simp only [buildFakeRules]
      rw [loadExternalRules_eq, loadExternalRules_eq]
      cases hw : extAttempt env (compressPattern pat) with
      | error e =>
          simp only [Except.map]
          exact ih c₁ c₂ hR
      | ok w =>
          simp only [Except.map]
          have hR' : sameUpToHostRules (applyExt w c₁) (applyExt w c₂) := by
            cases w with
            | none => exact hR
            | some kv =>
                obtain ⟨t1, t2, t3, t4, t5, t6, t7⟩ := hR
                refine ⟨t1, t2, t3, t4, ?_, t6, t7⟩
                funext x
                simp [applyExt, t5]
          obtain ⟨f1, f2⟩ := ih (applyExt w c₁) (applyExt w c₂) hR'
          exact ⟨by rw [f1], f2⟩

theorem buildFake_congr (env : Env) (fk : Option FakeIPConfig)
    {c₁ c₂ : dns.Config} (hR : sameUpToHostRules c₁ c₂) :
    sameUpToHostRules (buildFake env fk c₁) (buildFake env fk c₂) := by
  cases fk with
  | none => exact hR
  | some f =>
      cases hfr : f.fakeRules with
      | none =>
          simp only [buildFake, hfr]
          obtain ⟨t1, t2, t3, t4, t5, t6, t7⟩ := hR
          exact ⟨t1, t2, t3, t4, t5, rfl, t7⟩
      | some rules =>
          simp only [buildFake, hfr]
          obtain ⟨q1, q2⟩ := buildFakeRules_congr env rules c₁ c₂ hR
          obtain ⟨t1, t2, t3, t4, t5, t6, t7⟩ := q2
          exact ⟨t1, t2, t3, t4, t5, by rw [q1], t7⟩

theorem buildFake_fake (env : Env) (f : FakeIPConfig) (cfg : dns.Config) :
    ∃ fo, (buildFake env (some f) cfg).fake = some fo ∧
      fo.fakeNet = (if f.fakeNet = "" then "224.0.0.0/8" else f.fakeNet) := by
  cases hfr : f.fakeRules with
  | none =>
      simp only [buildFake, hfr]
      exact ⟨_, rfl, rfl⟩
  | some rules =>
      simp only [buildFake, hfr]
      exact ⟨_, rfl, rfl⟩

/-!
Dispatch lemmas for the sorted static-host loop, and congruence of the
hosts phase under re-enumeration of the Hosts map.
-/

theorem strStarts_false_of_head_ne {s p : String}
    (hne : p.data.head? ≠ s.data.head?) (hp : p.data ≠ []) :
    strStarts s p = false := by
  rcases hps : p.data with _ | ⟨b, bs⟩
  · exact absurd hps hp
  · rcases hss : s.data with _ | ⟨a, as⟩
    · simp [strStarts, hps, hss]
    · rw [hps, hss] at hne
      have hba : b ≠ a := by simpa using hne
      simp [strStarts, hps, hss, List.length_cons, List.take_succ_cons,
        Ne.symm hba, hba]

theorem sameUpToHostRules_refl (c : dns.Config) : sameUpToHostRules c c :=
  ⟨rfl, rfl, rfl, rfl, rfl, rfl, List.Perm.refl _⟩

theorem staticEntry_ext_malformed (env : Env) (addr : Address) (arg : String)
    (hnc : ¬ ':' ∈ arg.data) :
    ∃ e, staticEntry env addr ("ext:" ++ arg) = .error e := by
  have hdata : ("ext:" ++ arg).data = 'e' :: 'x' :: 't' :: ':' :: arg.data := by
    rw [String.data_append]
    rfl
  have h1 : strStarts ("ext:" ++ arg) "domain:" = false :=
    strStarts_false_of_head_ne (by rw [hdata]; simp only [List.head?_cons]; decide)
      (by decide)
  have h2 : strStarts ("ext:" ++ arg) "geosite:" = false :=
    strStarts_false_of_head_ne (by rw [hdata]; simp only [List.head?_cons]; decide)
      (by decide)
  have h3 : strStarts ("ext:" ++ arg) "regexp:" = false :=
    strStarts_false_of_head_ne (by rw [hdata]; simp only [List.head?_cons]; decide)
      (by decide)
  have h4 : strStarts ("ext:" ++ arg) "keyword:" = false :=
    strStarts_false_of_head_ne (by rw [hdata]; simp only [List.head?_cons]; decide)
      (by decide)
  have h5 : strStarts ("ext:" ++ arg) "full:" = false :=
    strStarts_false_of_head_ne (by rw [hdata]; simp only [List.head?_cons]; decide)
      (by decide)
  have hext : strStarts ("ext:" ++ arg) "ext:" = true := by
    rw [strStarts_iff]
    exact ⟨arg.data, (String.data_append _ _).symm⟩
  have hdrop : strDrop ("ext:" ++ arg) 4 = arg := by
    unfold strDrop
    rw [hdata]
    exact rfl
  have hsplit : splitStr arg ':' = [arg] := by
    unfold splitStr
    rw [splitChars_no_sep ':' arg.data hnc]
    rfl
  simp [staticEntry, h1, h2, h3, h4, h5, hext, hdrop, hsplit]

theorem hostsLoop2_error_of_mem (env : Env)
    (hosts : List (String × Address)) (d : String)
    (herr : ∀ a, ∃ e, staticEntry env a d = .error e)
    (hlk : (hosts.lookup d).isSome = true) :
    ∀ (keys : List String) (cfg : dns.Config), d ∈ keys →
      ∃ e, hostsLoop2 env hosts keys cfg = .error e := by
  intro keys
  induction keys with
  | nil => intro cfg h; simp at h
  | cons x rest ih =>
      intro cfg hmem
      by_cases hx : x = d
      · subst hx
        rcases hla : hosts.lookup x with _ | a
        · rw [hla] at hlk
          simp at hlk
        · obtain ⟨e, he⟩ := herr a
          exact ⟨e, by simp only [hostsLoop2, hla, he]⟩
      · have hmem' : d ∈ rest := by
          rcases List.mem_cons.mp hmem with h | h
          · exact absurd h.symm hx
          · exact h
        rcases hla : hosts.lookup x with _ | a
        · simp only [hostsLoop2, hla]
          exact ih cfg hmem'
        · rcases hse : staticEntry env a x with e | ms
          · exact ⟨e, by simp only [hostsLoop2, hla, hse]⟩
          · simp only [hostsLoop2, hla, hse]
            exact ih _ hmem'

theorem buildHosts_error_of_bad_key (env : Env)
    (hosts : List (String × Address)) (cfg : dns.Config)
    (d : String) (addr : Address) (hmem : (d, addr) ∈ hosts)
    (herr : ∀ a, ∃ e, staticEntry env a d = .error e) :
    ∃ e, buildHosts env hosts cfg = .error e := by
  have hne : hosts ≠ [] := by
    rintro rfl
    simp at hmem
  have hisE : hosts.isEmpty = false := List.isEmpty_eq_false.mpr hne
  simp only [buildHosts, hisE, Bool.false_eq_true, if_false]
  have hd : d ∈ sortStrings (hostsLoop1 env hosts ([], cfg)).1 := by
    rw [mem_sortStrings, hostsLoop1_fst env hosts [] cfg]
    simpa using List.mem_map_of_mem Prod.fst hmem
  have hlk : (hosts.lookup d).isSome = true := by
    obtain ⟨b, hb⟩ := lookup_isSome_of_mem hmem
    simp [hb]
  exact hostsLoop2_error_of_mem env hosts d herr hlk _ _ hd

theorem buildHosts_congr (env : Env) (l₁ l₂ : List (String × Address))
    (hperm : l₁.Perm l₂) (hnd : (l₁.map Prod.fst).Nodup)
    (cfg : dns.Config) :
    exceptRel sameUpToHostRules (buildHosts env l₁ cfg)
      (buildHosts env l₂ cfg) := by
  cases hE : l₁.isEmpty with
  | true =>
      have h1 : l₁ = [] := List.isEmpty_iff.mp hE
      have h2 : l₂ = [] := by
        rw [h1] at hperm
        exact List.perm_nil.mp hperm.symm
      rw [h1, h2]
      exact sameUpToHostRules_refl cfg
  | false =>
      have hne₂ : l₂ ≠ [] := by
        intro h2
        rw [List.isEmpty_eq_false] at hE
        exact hE (List.perm_nil.mp (h2 ▸ hperm))
      have hE₂ : l₂.isEmpty = false := List.isEmpty_eq_false.mpr hne₂
      simp only [buildHosts, hE, hE₂, Bool.false_eq_true, if_false]
      have hksort : sortStrings (hostsLoop1 env l₁ ([], cfg)).1 =
          sortStrings (hostsLoop1 env l₂ ([], cfg)).1 := by
        rw [hostsLoop1_fst env l₁ [] cfg, hostsLoop1_fst env l₂ [] cfg]
        exact sortStrings_eq_of_perm (by simpa using hperm.map Prod.fst)
      have hR : sameUpToHostRules (hostsLoop1 env l₁ ([], cfg)).2
          (hostsLoop1 env l₂ ([], cfg)).2 := by
        obtain ⟨a1, a2, a3, a4, a5⟩ := hostsLoop1_fields env l₁ [] cfg
        obtain ⟨b1, b2, b3, b4, b5⟩ := hostsLoop1_fields env l₂ [] cfg
        refine ⟨a1.trans b1.symm, a2.trans b2.symm, a3.trans b3.symm,
                a4.trans b4.symm, ?_, a5.trans b5.symm, ?_⟩
        · funext k
          rw [hostsLoop1_externalRules env l₁ [] cfg k,
            hostsLoop1_externalRules env l₂ [] cfg k]
          exact if_congr ((hperm.filterMap (extWriteKey env)).mem_iff) rfl rfl
        · rw [hostsLoop1_hostRules env l₁ [] cfg,
            hostsLoop1_hostRules env l₂ [] cfg]
          exact List.Perm.append_left _ (hperm.filterMap (keptRule env))
      rw [hksort]
      exact hostsLoop2_congr env l₁ l₂ (lookup_congr_perm hperm hnd) _ _ _ hR

theorem except_bind_ok {α β : Type} (a : α)
    (f : α → Except String β) : Except.bind (.ok a) f = f a := rfl

theorem except_bind_error {α β : Type} (e : String)
    (f : α → Except String β) :
    Except.bind (.error e : Except String α) f = .error e := rfl

theorem head_safe_aux (cmd rest : String) (c0 : Char) (cs : List Char)
    (hc : cmd.data = c0 :: cs) :
    (cmd ++ rest).data ≠ [] ∧ (cmd ++ rest).data.headD ' ' = c0 := by
  rw [String.data_append, hc]
  exact ⟨by simp, by simp⟩

/-!
Claim theorems.
-/

/-- C1, counterexample: the claim states that compressing `"geosite:cn"`
yields `"egeosite.dat:CN"` with the tag upper-cased; `compressPattern`
substitutes the default filename but passes the tag through unchanged,
yielding the lower-case `"egeosite.dat:cn"`. -/
theorem compressPattern_geosite_counterexample :
    compressPattern "geosite:cn" = "egeosite.dat:cn" ∧
    compressPattern "geosite:cn" ≠ "egeosite.dat:CN" := by
  exact ⟨by decide, by decide⟩

/-- C1, amended: the pattern compressor is a pure function of dialect and
value mapping each recognized dialect to its one-letter code:
`"domain:example.com"` compresses to `"dexample.com"`, `"geosite:cn"` to
`"egeosite.dat:cn"` (default filename substituted, tag passed through
unchanged, not upper-cased), and the unprefixed `"nodialect.com"` to
`"fnodialect.com"`. -/
theorem compressPattern_examples :
    compressPattern "domain:example.com" = "dexample.com" ∧
    compressPattern "geosite:cn" = "egeosite.dat:cn" ∧
    compressPattern "nodialect.com" = "fnodialect.com" := by
  exact ⟨by decide, by decide, by decide⟩

/-- C2: for every subdomain pattern `p` and candidate `d`, the Subdomain
matcher's `Match d` returns true iff `d = p` or `d` ends with the string
`"." ++ p`; e.g. pattern `example.com` matches `example.com` and
`a.example.com` but not `xexample.com`. -/
theorem domainMatcher_match_iff (p d : List Char) :
    (strmatcher.Matcher.domain p).Match d = true ↔
      d = p ∨ ('.' :: p) <:+ d := by
  by_cases hs : p.isSuffixOf d = true
  · obtain ⟨t, rfl⟩ := List.isSuffixOf_iff_suffix.mp hs
    simp only [strmatcher.Matcher.Match, hs, Bool.not_true,
      Bool.false_eq_true, if_false, Bool.or_eq_true, beq_iff_eq]
    constructor
    · rintro (hlen | hdot)
      · left
        have ht : t = [] := by
          rw [List.length_append] at hlen
          have h0 : t.length = 0 := by omega
          exact List.eq_nil_of_length_eq_zero h0
        rw [ht, List.nil_append]
      · rcases List.eq_nil_or_concat t with rfl | ⟨t', a, rfl⟩
        · exact Or.inl (by simp)
        · right
          rw [List.concat_eq_append] at hdot ⊢
          have hidx : ((t' ++ [a]) ++ p).length - p.length - 1
              = t'.length := by
            simp only [List.length_append, List.length_cons,
              List.length_nil]
            omega
          rw [hidx] at hdot
          have hget : ((t' ++ [a]) ++ p)[t'.length]? = some a := by
            rw [List.append_assoc, List.getElem?_append]
            simp
          rw [hget] at hdot
          obtain rfl : a = '.' := by simpa using hdot
          exact ⟨t', by simp⟩
    · rintro (heq | ⟨t2, ht2⟩)
      · exact Or.inl (by rw [heq])
      · right
        rw [show t2 ++ '.' :: p = (t2 ++ ['.']) ++ p by simp] at ht2
        obtain rfl := List.append_cancel_right ht2
        have hidx : ((t2 ++ ['.']) ++ p).length - p.length - 1
            = t2.length := by
          simp only [List.length_append, List.length_cons, List.length_nil]
          omega
        rw [hidx]
        rw [List.append_assoc, List.getElem?_append]
        simp
  · constructor
    · intro h
      have hs' : p.isSuffixOf d = false := by
        cases hsb : p.isSuffixOf d
        · rfl
        · exact absurd hsb hs
      simp [strmatcher.Matcher.Match, hs'] at h
    · rintro (rfl | ⟨t, rfl⟩)
      · exact absurd (List.isSuffixOf_iff_suffix.mpr (List.suffix_refl _)) hs
      · exact absurd
          (List.isSuffixOf_iff_suffix.mpr ⟨t ++ ['.'], by simp⟩) hs

/-- C8: `And(a, b).Match s` equals `a.Match s && b.Match s`, which
short-circuits left to right (it is the conditional that consults the
right matcher only when the left one returned true — in the pure model
the evaluation-order aspect is exactly this conditional form), and
`Not(m).Match s` is the negation of `m.Match s`; in particular
`Full("xy") AND NOT Substring("z")` matches `"xy"`. -/
theorem matcher_and_not_semantics (a b m : strmatcher.Matcher)
    (s : List Char) :
    (strmatcher.Matcher.and a b).Match s = (a.Match s && b.Match s) ∧
    (strmatcher.Matcher.and a b).Match s
      = (if a.Match s = true then b.Match s else false) ∧
    (strmatcher.Matcher.not m).Match s = !(m.Match s) ∧
    (strmatcher.Matcher.and (.full ['x', 'y'])
      (.not (.substr ['z']))).Match ['x', 'y'] = true := by
  refine ⟨rfl, ?_, rfl, by decide⟩
  show (a.Match s && b.Match s) = _
  cases h : a.Match s <;> simp [h]

/-- C7: whenever `loadExternalRules` resolves an external reference, the
key under which the expansion is stored in the external-rule index is
exactly the substring of the compressed pattern after the leading `'e'`
(`pattern[1:]`), and a later lookup by that key returns the resolver's
ordered output (one kind-letter-plus-value string per resolved entry)
without re-invoking the resolver. -/
theorem loadExternalRules_key_invariant (env : Env) (pat : String)
    (c : dns.Config) (filename country : String) (ds : List router.Domain)
    (h0 : pat.data.headD ' ' = 'e')
    (h1 : splitStr (strDrop pat 1) ':' = [filename, country])
    (h2 : env.loadGeositeWithAttr filename country = .ok ds) :
    loadExternalRules env pat c =
      .ok { c with externalRules := fun k =>
              if k = strDrop pat 1 then
                some ⟨ds.map (fun d => typeMapper d.type ++ d.value)⟩
              else c.externalRules k } ∧
    ∀ c', loadExternalRules env pat c = .ok c' →
      c'.externalRules (strDrop pat 1) =
        some ⟨ds.map (fun d => typeMapper d.type ++ d.value)⟩ := by
  have hmain := loadExternalRules_resolved env pat c h0 h1 h2
  refine ⟨hmain, ?_⟩
  intro c' hc'
  rw [hmain, Except.ok.injEq] at hc'
  rw [← hc']
  simp

/-- Witness for C7 at the concrete compressed pattern `"eg:a"`. -/
theorem loadExternalRules_key_invariant_witness :
    (("eg:a" : String).data.headD ' ' = 'e') ∧
    splitStr (strDrop "eg:a" 1) ':' = ["g", "a"] ∧
    envW.loadGeositeWithAttr "g" "a" =
      .ok [⟨.Full, "x.com"⟩, ⟨.Domain, "y.com"⟩] ∧
    (loadExternalRules envW "eg:a" {} =
      .ok { ({} : dns.Config) with externalRules := fun k =>
              (if k = strDrop "eg:a" 1 then
                some ⟨([⟨.Full, "x.com"⟩, ⟨.Domain, "y.com"⟩] :
                        List router.Domain).map
                        (fun d => typeMapper d.type ++ d.value)⟩
              else ({} : dns.Config).externalRules k) } ∧
     ∀ c', loadExternalRules envW "eg:a" {} = .ok c' →
       c'.externalRules (strDrop "eg:a" 1) =
         some ⟨([⟨.Full, "x.com"⟩, ⟨.Domain, "y.com"⟩] :
                 List router.Domain).map
                 (fun d => typeMapper d.type ++ d.value)⟩) :=
  ⟨by decide, by decide, by decide,
   loadExternalRules_key_invariant envW "eg:a" {} "g" "a"
     [⟨.Full, "x.com"⟩, ⟨.Domain, "y.com"⟩]
     (by decide) (by decide) (by decide)⟩

/-- C10: `compressPattern` always returns a string whose character list
is non-empty and starts with one of the letters d, f, k, r, i, e (the
empty input compresses to `"f"`), so the indexing `pattern[0]` and the
slice `pattern[1:]` in `loadExternalRules` are in bounds on every
compressed pattern; and when the first character is not `'e'`,
`loadExternalRules` returns no error and leaves the config — in
particular its external-rule index — unchanged. -/
theorem compressPattern_head_safe :
    (∀ p : String, (compressPattern p).data ≠ [] ∧
      (compressPattern p).data.headD ' ' ∈ ['d', 'f', 'k', 'r', 'i', 'e']) ∧
    compressPattern "" = "f" ∧
    (∀ (env : Env) (pat : String) (c : dns.Config),
      pat.data.headD ' ' ≠ 'e' → loadExternalRules env pat c = .ok c) := by
  refine ⟨?_, by decide,
    fun env pat c h => loadExternalRules_not_e env pat c h⟩
  intro p
  unfold compressPattern
  cases hf : prefixMapper.find? (fun pc => strStarts p pc.1) with
  | none =>
      refine ⟨(head_safe_aux "f" p 'f' [] rfl).1, ?_⟩
      rw [(head_safe_aux "f" p 'f' [] rfl).2]
      decide
  | some pc =>
      have hpc : pc ∈ prefixMapper := List.mem_of_find?_eq_some hf
      simp only [prefixMapper, List.mem_cons, List.not_mem_nil,
        or_false] at hpc
      rcases hpc with rfl | rfl | rfl | rfl | rfl | rfl | rfl
      · exact ⟨(head_safe_aux "d" _ 'd' [] rfl).1,
          by rw [(head_safe_aux "d" _ 'd' [] rfl).2]; decide⟩
      · exact ⟨(head_safe_aux "r" _ 'r' [] rfl).1,
          by rw [(head_safe_aux "r" _ 'r' [] rfl).2]; decide⟩
      · exact ⟨(head_safe_aux "k" _ 'k' [] rfl).1,
          by rw [(head_safe_aux "k" _ 'k' [] rfl).2]; decide⟩
      · exact ⟨(head_safe_aux "f" _ 'f' [] rfl).1,
          by rw [(head_safe_aux "f" _ 'f' [] rfl).2]; decide⟩
      · exact ⟨(head_safe_aux "egeosite.dat:" _ 'e' "geosite.dat:".data
            (by decide)).1,
          by rw [(head_safe_aux "egeosite.dat:" _ 'e' "geosite.dat:".data
            (by decide)).2]; decide⟩
      · exact ⟨(head_safe_aux "e" _ 'e' [] rfl).1,
          by rw [(head_safe_aux "e" _ 'e' [] rfl).2]; decide⟩
      · exact ⟨(head_safe_aux "i" _ 'i' [] rfl).1,
          by rw [(head_safe_aux "i" _ 'i' [] rfl).2]; decide⟩

/-- Witness for C10 at the non-external pattern `"fx"` (head `'f'`). -/
theorem compressPattern_head_safe_witness :
    (("fx" : String).data.headD ' ' ≠ 'e') ∧
    loadExternalRules envW "fx" {} = .ok {} :=
  ⟨by decide, compressPattern_head_safe.2.2 envW "fx" {} (by decide)⟩

/-- C3: whenever the Hosts map contains a pattern `"ext:" ++ arg` whose
argument has no `":"` separator, `DnsConfig.build` returns an error —
and, the result being `Except.error`, no (partially populated) config
object at all. -/
theorem build_malformed_ext_errors (env : Env) (c : DnsConfig)
    (arg : String) (addr : Address)
    (hmem : ("ext:" ++ arg, addr) ∈ c.hosts)
    (hnc : ¬ ':' ∈ arg.data) :
    ∃ e, DnsConfig.build env c = .error e := by
  unfold DnsConfig.build
  cases h1 : buildClientIp c { tag := c.tag } with
  | error e => exact ⟨e, rfl⟩
  | ok cfg1 =>
      simp only [h1, except_bind_ok]
      cases h2 : buildServers env c.servers cfg1 with
      | error e => exact ⟨e, rfl⟩
      | ok cfg2 =>
          simp only [h2, except_bind_ok]
          obtain ⟨e, he⟩ := buildHosts_error_of_bad_key env c.hosts cfg2
            ("ext:" ++ arg) addr hmem
            (fun a => staticEntry_ext_malformed env a arg hnc)
          exact ⟨e, by rw [he]; rfl⟩

/-- Witness for C3 at the concrete Hosts map containing
`"ext:onlyonepart"`. -/
theorem build_malformed_ext_errors_witness :
    (("ext:" ++ "onlyonepart", Address.ip [1]) ∈
      ([("ext:onlyonepart", Address.ip [1])] : List (String × Address))) ∧
    (¬ ':' ∈ ("onlyonepart" : String).data) ∧
    ∃ e, DnsConfig.build envW
      ⟨[], [("ext:onlyonepart", Address.ip [1])], none, "", none⟩
      = .error e :=
  ⟨by decide, by decide,
   build_malformed_ext_errors envW
     ⟨[], [("ext:onlyonepart", Address.ip [1])], none, "", none⟩
     "onlyonepart" (Address.ip [1]) (by decide) (by decide)⟩

/-- C9: when a fake-response configuration is present and the build
succeeds, the network range is `"224.0.0.0/8"` if the configured string
was empty, and the configured string unchanged otherwise. -/
theorem build_fakeNet_default (env : Env) (c : DnsConfig)
    (f : FakeIPConfig) (hf : c.fake = some f)
    (hok : (DnsConfig.build env c).isOk = true) :
    ∃ r, DnsConfig.build env c = .ok r ∧
      ∃ fo, r.fake = some fo ∧
        fo.fakeNet =
          (if f.fakeNet = "" then "224.0.0.0/8" else f.fakeNet) := by
  unfold DnsConfig.build at hok ⊢
  cases h1 : buildClientIp c { tag := c.tag } with
  | error e =>
      rw [h1] at hok
      simp [Except.bind, Except.isOk, Except.toBool] at hok
  | ok cfg1 =>
      simp only [h1, except_bind_ok] at hok ⊢
      cases h2 : buildServers env c.servers cfg1 with
      | error e =>
          rw [h2] at hok
          simp [Except.bind, Except.isOk, Except.toBool] at hok
      | ok cfg2 =>
          simp only [h2, except_bind_ok] at hok ⊢
          cases h3 : buildHosts env c.hosts cfg2 with
          | error e =>
              rw [h3] at hok
              simp [Except.map, Except.isOk, Except.toBool] at hok
          | ok cfg3 =>
              simp only [h3, Except.map] at hok ⊢
              rw [hf]
              obtain ⟨fo, hfo, hnet⟩ := buildFake_fake env f cfg3
              exact ⟨_, rfl, fo, hfo, hnet⟩

/-- Witness for C9 at a concrete config whose fake section has an
unspecified (empty) network range. -/
theorem build_fakeNet_default_witness :
    ((⟨[], [], none, "", some ⟨none, ""⟩⟩ : DnsConfig).fake
      = some ⟨none, ""⟩) ∧
    (DnsConfig.build envW ⟨[], [], none, "", some ⟨none, ""⟩⟩).isOk
      = true ∧
    ∃ r, DnsConfig.build envW ⟨[], [], none, "", some ⟨none, ""⟩⟩
        = .ok r ∧
      ∃ fo, r.fake = some fo ∧
        fo.fakeNet = (if (⟨none, ""⟩ : FakeIPConfig).fakeNet = ""
                      then "224.0.0.0/8"
                      else (⟨none, ""⟩ : FakeIPConfig).fakeNet) :=
  ⟨rfl, by decide,
   build_fakeNet_default envW ⟨[], [], none, "", some ⟨none, ""⟩⟩
     ⟨none, ""⟩ rfl (by decide)⟩

/-- C4: a fake-rule list holding one external pattern whose resolution
succeeds and one whose resolution fails builds successfully, and the
resulting fake-rule list contains exactly the compressed form of the
resolvable pattern, the unresolvable one being dropped. -/
theorem build_fake_partial (env : Env)
    (t fn p1 p2 f1 c1 f2 c2 : String)
    (ds1 : List router.Domain) (e2 : String)
    (rules : List String)
    (hrules : rules = [p1, p2] ∨ rules = [p2, p1])
    (h1a : (compressPattern p1).data.headD ' ' = 'e')
    (h1b : splitStr (strDrop (compressPattern p1) 1) ':' = [f1, c1])
    (h1c : env.loadGeositeWithAttr f1 c1 = .ok ds1)
    (h2a : (compressPattern p2).data.headD ' ' = 'e')
    (h2b : splitStr (strDrop (compressPattern p2) 1) ':' = [f2, c2])
    (h2c : env.loadGeositeWithAttr f2 c2 = .error e2) :
    Except.map (fun r => (dns.Config.fake r).map dns.Config_Fake.fakeRules)
        (DnsConfig.build env ⟨[], [], none, t, some ⟨some rules, fn⟩⟩)
      = .ok (some [compressPattern p1]) := by
  have hskip : ∀ (cfg : dns.Config) (rest : List String),
      buildFakeRules env (p2 :: rest) cfg = buildFakeRules env rest cfg := by
    intro cfg rest
    simp only [buildFakeRules,
      loadExternalRules_failed env (compressPattern p2) cfg h2a h2b h2c]
  rcases hrules with rfl | rfl
  · have hstep : DnsConfig.build env
        ⟨[], [], none, t, some ⟨some [p1, p2], fn⟩⟩
        = .ok (buildFake env (some ⟨some [p1, p2], fn⟩) { tag := t }) := rfl
    have hkeep1 : ∀ cfg : dns.Config,
        (buildFakeRules env [p1, p2] cfg).1 = [compressPattern p1] := by
      intro cfg
      simp only [buildFakeRules,
        loadExternalRules_resolved env (compressPattern p1) cfg h1a h1b h1c]
      rw [loadExternalRules_failed env (compressPattern p2) _ h2a h2b h2c]
    rw [hstep]
    simp only [Except.map, buildFake, Option.map, hkeep1]
  · have hstep : DnsConfig.build env
        ⟨[], [], none, t, some ⟨some [p2, p1], fn⟩⟩
        = .ok (buildFake env (some ⟨some [p2, p1], fn⟩) { tag := t }) := rfl
    have hkeep2 : ∀ cfg : dns.Config,
        (buildFakeRules env [p2, p1] cfg).1 = [compressPattern p1] := by
      intro cfg
      rw [hskip cfg [p1]]
      simp only [buildFakeRules,
        loadExternalRules_resolved env (compressPattern p1) cfg h1a h1b h1c]
    rw [hstep]
    simp only [Except.map, buildFake, Option.map, hkeep2]

/-- Witness for C4: `"ext:g:a"` resolves in `envW`, `"ext:g:b"` does
not; the built fake-rule list is exactly `["eg:a"]`. -/
theorem build_fake_partial_witness :
    ((compressPattern "ext:g:a").data.headD ' ' = 'e') ∧
    splitStr (strDrop (compressPattern "ext:g:a") 1) ':' = ["g", "a"] ∧
    envW.loadGeositeWithAttr "g" "a"
      = .ok [⟨.Full, "x.com"⟩, ⟨.Domain, "y.com"⟩] ∧
    ((compressPattern "ext:g:b").data.headD ' ' = 'e') ∧
    splitStr (strDrop (compressPattern "ext:g:b") 1) ':' = ["g", "b"] ∧
    envW.loadGeositeWithAttr "g" "b" = .error "unknown" ∧
    Except.map (fun r => (dns.Config.fake r).map dns.Config_Fake.fakeRules)
        (DnsConfig.build envW ⟨[], [], none, "",
          some ⟨some ["ext:g:a", "ext:g:b"], ""⟩⟩)
      = .ok (some [compressPattern "ext:g:a"]) :=
  ⟨by decide, by decide, by decide, by decide, by decide, by decide,
   build_fake_partial envW "" "" "ext:g:a" "ext:g:b" "g" "a" "g" "b"
     [⟨.Full, "x.com"⟩, ⟨.Domain, "y.com"⟩] "unknown"
     ["ext:g:a", "ext:g:b"] (Or.inl rfl)
     (by decide) (by decide) (by decide) (by decide) (by decide)
     (by decide)⟩

theorem build_hosts_only (env : Env) (srv : List NameServerConfig)
    (cip : Option Address) (t : String) (fk : Option FakeIPConfig)
    (l : List (String × Address)) :
    DnsConfig.build env ⟨srv, l, cip, t, fk⟩ =
      Except.bind (buildClientIp ⟨srv, [], cip, t, fk⟩ { tag := t })
        (fun cfg1 =>
          Except.bind (buildServers env srv cfg1) (fun cfg2 =>
            Except.map (buildFake env fk) (buildHosts env l cfg2))) := rfl

/-- C5, counterexample: the claim says two successful runs on the same
input produce identical outputs including the order of the HostRules
list; but HostRules is appended while iterating the Hosts map (before
the keys are sorted), so two enumeration orders of the same two-entry
map yield HostRules in different orders. -/
theorem build_hostRules_order_counterexample :
    hostsA.Perm hostsB ∧ (hostsA.map Prod.fst).Nodup ∧
    Except.map dns.Config.hostRules
        (DnsConfig.build envW ⟨[], hostsA, none, "", none⟩)
      = .ok [{ ip := [[1]], pattern := "fa" },
             { ip := [[1]], pattern := "fb" }] ∧
    Except.map dns.Config.hostRules
        (DnsConfig.build envW ⟨[], hostsB, none, "", none⟩)
      = .ok [{ ip := [[1]], pattern := "fb" },
             { ip := [[1]], pattern := "fa" }] ∧
    ([{ ip := [[1]], pattern := "fa" }, { ip := [[1]], pattern := "fb" }] :
        List dns.Config_HostMapping)
      ≠ [{ ip := [[1]], pattern := "fb" }, { ip := [[1]], pattern := "fa" }] :=
  ⟨by decide, by decide, by decide, by decide, by decide⟩

/-- C5, amended: for two successful runs of `DnsConfig.build` on the
same input — the same abstract Hosts map, i.e. any two enumeration
orders `l₁ ~ l₂` of the same key-distinct entry set — every emitted
field of the two outputs is identical (tag, client IP, name servers in
declaration order, StaticHosts in sorted-key order, the external-rule
index, and the fake section including its rule order), except the
HostRules list, which is emitted in map-enumeration order and therefore
agrees only as a multiset (up to permutation). -/
theorem build_deterministic_up_to_hostRules (env : Env)
    (srv : List NameServerConfig) (cip : Option Address) (t : String)
    (fk : Option FakeIPConfig) (l₁ l₂ : List (String × Address))
    (hperm : l₁.Perm l₂) (hnd : (l₁.map Prod.fst).Nodup)
    (hok : (DnsConfig.build env ⟨srv, l₁, cip, t, fk⟩).isOk = true) :
    sameBuildUpToHostRules (DnsConfig.build env ⟨srv, l₁, cip, t, fk⟩)
      (DnsConfig.build env ⟨srv, l₂, cip, t, fk⟩) := by
  rw [build_hosts_only env srv cip t fk l₁] at hok ⊢
  rw [build_hosts_only env srv cip t fk l₂]
  cases h1 : buildClientIp ⟨srv, [], cip, t, fk⟩ { tag := t } with
  | error e =>
      rw [h1] at hok
      simp [Except.bind, Except.isOk, Except.toBool] at hok
  | ok cfg1 =>
      simp only [h1, except_bind_ok] at hok ⊢
      cases h2 : buildServers env srv cfg1 with
      | error e =>
          rw [h2] at hok
          simp [Except.bind, Except.isOk, Except.toBool] at hok
      | ok cfg2 =>
          simp only [h2, except_bind_ok] at hok ⊢
          have hrel := buildHosts_congr env l₁ l₂ hperm hnd cfg2
          cases hb1 : buildHosts env l₁ cfg2 with
          | error e =>
              rw [hb1] at hok
              simp [Except.map, Except.isOk, Except.toBool] at hok
          | ok r₁ =>
              cases hb2 : buildHosts env l₂ cfg2 with
              | error e2 =>
                  rw [hb1, hb2] at hrel
                  exact (hrel : False).elim
              | ok r₂ =>
                  rw [hb1, hb2] at hrel
                  exact ⟨buildFake env fk r₁, buildFake env fk r₂, rfl, rfl,
                    buildFake_congr env fk
                      (hrel : sameUpToHostRules r₁ r₂)⟩

/-- Witness for the amended C5 on the two enumerations `hostsA`,
`hostsB` of the same two-entry map. -/
theorem build_deterministic_up_to_hostRules_witness :
    hostsA.Perm hostsB ∧ (hostsA.map Prod.fst).Nodup ∧
    (DnsConfig.build envW ⟨[], hostsA, none, "", none⟩).isOk = true ∧
    sameBuildUpToHostRules
      (DnsConfig.build envW ⟨[], hostsA, none, "", none⟩)
      (DnsConfig.build envW ⟨[], hostsB, none, "", none⟩) :=
  ⟨by decide, by decide, by decide,
   build_deterministic_up_to_hostRules envW [] none "" none hostsA hostsB
     (by decide) (by decide) (by decide)⟩

/-- C6: building from the two-entry Hosts map
`{"domain:a.com" ↦ addr1, "full:b.com" ↦ addr2}` — in either
enumeration order — yields StaticHosts with exactly one Subdomain
mapping for `a.com` targeting addr1 and one Full mapping for `b.com`
targeting addr2, emitted in sorted order of the textual keys
(`domain:a.com` before `full:b.com`). -/
theorem build_static_hosts_two_entry (env : Env) (t : String)
    (a1 a2 : Address) (l : List (String × Address))
    (hl : l = [("domain:a.com", a1), ("full:b.com", a2)] ∨
          l = [("full:b.com", a2), ("domain:a.com", a1)]) :
    Except.map dns.Config.staticHosts
        (DnsConfig.build env ⟨[], l, none, t, none⟩)
      = .ok [{ getHostMapping a1 with
               type := .Subdomain
               pattern := "a.com" },
             { getHostMapping a2 with
               type := .Full
               pattern := "b.com" }] := by
  have hs1 : staticEntry env a1 "domain:a.com" =
      .ok [{ getHostMapping a1 with
             type := .Subdomain
             pattern := "a.com" }] := by
    have h0 : strStarts "domain:a.com" "domain:" = true := by decide
    have hd : strDrop "domain:a.com" 7 = "a.com" := by decide
    simp [staticEntry, h0, hd]
  have hs2 : staticEntry env a2 "full:b.com" =
      .ok [{ getHostMapping a2 with
             type := .Full
             pattern := "b.com" }] := by
    have hb1 : strStarts "full:b.com" "domain:" = false := by decide
    have hb2 : strStarts "full:b.com" "geosite:" = false := by decide
    have hb3 : strStarts "full:b.com" "regexp:" = false := by decide
    have hb4 : strStarts "full:b.com" "keyword:" = false := by decide
    have hb5 : strStarts "full:b.com" "full:" = true := by decide
    have hd : strDrop "full:b.com" 5 = "b.com" := by decide
    simp [staticEntry, hb1, hb2, hb3, hb4, hb5, hd]
  rcases hl with rfl | rfl
  · rw [build_hosts_only env [] none t none]
    simp only [except_bind_ok]
    have hsort : sortStrings
        ((hostsLoop1 env [("domain:a.com", a1), ("full:b.com", a2)]
          ([], { tag := t })).1) = ["domain:a.com", "full:b.com"] := by
      rw [hostsLoop1_fst]
      rfl
    have hlk1 : List.lookup "domain:a.com"
        [("domain:a.com", a1), ("full:b.com", a2)] = some a1 := by
      simp [List.lookup_cons]
    have hlk2 : List.lookup "full:b.com"
        [("domain:a.com", a1), ("full:b.com", a2)] = some a2 := by
      have hne : ("full:b.com" == "domain:a.com") = false := by decide
      simp [List.lookup_cons, hne]
    have hfld := (hostsLoop1_fields env
      [("domain:a.com", a1), ("full:b.com", a2)] [] { tag := t }).2.2.2.1
    simp only [buildHosts, List.isEmpty_cons, Bool.false_eq_true, if_false,
      hsort, hostsLoop2, hlk1, hs1, hlk2, hs2]
    simp [Except.map, buildFake, hfld, buildClientIp, buildServers,
      except_bind_ok]
  · rw [build_hosts_only env [] none t none]
    simp only [except_bind_ok]
    have hsort : sortStrings
        ((hostsLoop1 env [("full:b.com", a2), ("domain:a.com", a1)]
          ([], { tag := t })).1) = ["domain:a.com", "full:b.com"] := by
      rw [hostsLoop1_fst]
      rfl
    have hlk1 : List.lookup "domain:a.com"
        [("full:b.com", a2), ("domain:a.com", a1)] = some a1 := by
      have hne : ("domain:a.com" == "full:b.com") = false := by decide
      simp [List.lookup_cons, hne]
    have hlk2 : List.lookup "full:b.com"
        [("full:b.com", a2), ("domain:a.com", a1)] = some a2 := by
      simp [List.lookup_cons]
    have hfld := (hostsLoop1_fields env
      [("full:b.com", a2), ("domain:a.com", a1)] [] { tag := t }).2.2.2.1
    simp only [buildHosts, List.isEmpty_cons, Bool.false_eq_true, if_false,
      hsort, hostsLoop2, hlk1, hs1, hlk2, hs2]
    simp [Except.map, buildFake, hfld, buildClientIp, buildServers,
      except_bind_ok]

/-- Witness for C6 at concrete addresses (an IP target and a proxied
domain target), in the first enumeration order. -/
theorem build_static_hosts_two_entry_witness :
    (([("domain:a.com", Address.ip [1, 2, 3, 4]),
       ("full:b.com", Address.domain "tgt")] : List (String × Address))
       = [("domain:a.com", Address.ip [1, 2, 3, 4]),
          ("full:b.com", Address.domain "tgt")] ∨
     ([("domain:a.com", Address.ip [1, 2, 3, 4]),
       ("full:b.com", Address.domain "tgt")] : List (String × Address))
       = [("full:b.com", Address.domain "tgt"),
          ("domain:a.com", Address.ip [1, 2, 3, 4])]) ∧
    Except.map dns.Config.staticHosts
        (DnsConfig.build envW
          ⟨[], [("domain:a.com", Address.ip [1, 2, 3, 4]),
                ("full:b.com", Address.domain "tgt")], none, "", none⟩)
      = .ok [{ getHostMapping (Address.ip [1, 2, 3, 4]) with
               type := .Subdomain
               pattern := "a.com" },
             { getHostMapping (Address.domain "tgt") with
               type := .Full
               pattern := "b.com" }] :=
  ⟨Or.inl rfl,
   build_static_hosts_two_entry envW "" (Address.ip [1, 2, 3, 4])
     (Address.domain "tgt") _ (Or.inl rfl)⟩
